import Mathlib

/-!
Shallow embedding of `core/network-libp2p/src/behaviour.rs`: the composite
network behaviour (`Behaviour`), its discovery subsystem
(`DiscoveryBehaviour`), and the event-translation handlers.

External collaborators (libp2p's Kademlia, the custom-protocols handler,
ping, identify, mDNS) are not part of the source file; they are modelled at
the narrow interface through which `behaviour.rs` consumes them, as
described in the specification (§6).  State the source never inspects is
kept as opaque type parameters.
-/

/-- Opaque content-derived identifier of a remote node, compared by value. -/
abbrev PeerId := Nat

/-- Network-reachable location for a peer (multiaddress), compared by value. -/
abbrev Multiaddr := Nat

/-- Direction and address of one physical connection to a peer. -/
structure ConnectedPoint where
  dialer : Bool
  address : Multiaddr
deriving DecidableEq

/-- Modelled from the spec: the DHT collaborator (libp2p Kademlia), consumed
only through `add_connected_address` (learn an address for a peer),
`addresses_of_peer`, `kbuckets_entries` (enumerate routing-table peers) and
`find_node`.  `addrBook` records learned (peer, address) pairs in call
order, `kbuckets` the routing-table membership, and `queries` the
`find_node` calls issued, in order. -/
structure Kademlia where
  addrBook : List (PeerId × Multiaddr)
  kbuckets : List PeerId
  queries : List PeerId
deriving DecidableEq

/-- Modelled from the spec: `Kademlia::new(local_peer_id)` starts with an
empty routing state. -/
def Kademlia.new (_local_peer_id : PeerId) : Kademlia :=
  { addrBook := [], kbuckets := [], queries := [] }

/-- Modelled from the spec: `add_reachable_address(peer, address)` records
the pair in the DHT's learned-address book. -/
def Kademlia.add_connected_address (k : Kademlia) (p : PeerId) (a : Multiaddr) : Kademlia :=
  { k with addrBook := k.addrBook ++ [(p, a)] }

/-- Modelled from the spec: `addresses_of(peer)` returns every address the
DHT currently associates with the peer, in learned order. -/
def Kademlia.addresses_of_peer (k : Kademlia) (p : PeerId) : List Multiaddr :=
  (k.addrBook.filter fun e => e.1 == p).map fun e => e.2

/-- Modelled from the spec: `find_nodes_near(peer_id)` issues a query; we
record it in issue order. -/
def Kademlia.find_node (k : Kademlia) (p : PeerId) : Kademlia :=
  { k with queries := k.queries ++ [p] }

/-- Modelled from the spec: `known_peer_ids()` enumerates the peers present
in the routing table. -/
def Kademlia.kbuckets_entries (k : Kademlia) : List PeerId :=
  k.kbuckets

/-- Modelled from the spec: the application-messaging collaborator
(`CustomProto`), consumed only through `register_discovered` /
`add_discovered_node`, `disconnect_peer`, `send_packet`, `is_open` and
`is_enabled`.  The mutating calls are recorded as call logs in call order;
the boolean queries read fixed membership lists. -/
structure CustomProto (TMessage : Type) where
  discovered : List PeerId
  disconnectRequests : List PeerId
  sent : List (PeerId × TMessage)
  openPeers : List PeerId
  enabledPeers : List PeerId
deriving DecidableEq

/-- Modelled from the spec: register a peer as discovered. -/
def CustomProto.add_discovered_node {TMessage : Type} (cp : CustomProto TMessage)
    (p : PeerId) : CustomProto TMessage :=
  { cp with discovered := cp.discovered ++ [p] }

/-- Modelled from the spec: asynchronously request that the session with the
peer be closed; the request is only recorded here. -/
def CustomProto.disconnect_peer {TMessage : Type} (cp : CustomProto TMessage)
    (p : PeerId) : CustomProto TMessage :=
  { cp with disconnectRequests := cp.disconnectRequests ++ [p] }

/-- Modelled from the spec: send a payload to a peer (no-op at session level
if no session is open; the call itself is recorded). -/
def CustomProto.send_packet {TMessage : Type} (cp : CustomProto TMessage)
    (p : PeerId) (m : TMessage) : CustomProto TMessage :=
  { cp with sent := cp.sent ++ [(p, m)] }

/-- Modelled from the spec: true when a session with the peer is open. -/
def CustomProto.is_open {TMessage : Type} (cp : CustomProto TMessage) (p : PeerId) : Bool :=
  cp.openPeers.contains p

/-- Modelled from the spec: true when we try to open protocols with the peer. -/
def CustomProto.is_enabled {TMessage : Type} (cp : CustomProto TMessage) (p : PeerId) : Bool :=
  cp.enabledPeers.contains p

/-- Information reported by the identify (peer-info exchange) protocol; only
the fields `behaviour.rs` reads are kept. -/
structure IdentifyInfo where
  protocol_version : List Char
  listen_addrs : List Multiaddr
deriving DecidableEq

/-- Substring containment on character lists, mirroring Rust's
`str::contains` used on `info.protocol_version`. -/
def containsSub (hay needle : List Char) : Bool :=
  match hay with
  | [] => needle.isEmpty
  | _ :: t => needle.isPrefixOf hay || containsSub t needle

/-- Event that can be emitted by the behaviour (`BehaviourOut`). -/
inductive BehaviourOut (TMessage : Type) where
  | CustomProtocolOpen (version : Nat) (peer_id : PeerId) (endpoint : ConnectedPoint)
  | CustomProtocolClosed (peer_id : PeerId) (endpoint : ConnectedPoint) (result : Option String)
  | CustomMessage (peer_id : PeerId) (endpoint : ConnectedPoint) (message : TMessage)
  | Clogged (peer_id : PeerId) (messages : List TMessage)
  | Identified (peer_id : PeerId) (info : IdentifyInfo)
  | PingSuccess (peer_id : PeerId) (ping_time : Nat)
deriving DecidableEq

/-- Raw output of the application-messaging sub-protocol (`CustomProtoOut`). -/
inductive CustomProtoOut (TMessage : Type) where
  | CustomProtocolOpen (version : Nat) (peer_id : PeerId) (endpoint : ConnectedPoint)
  | CustomProtocolClosed (peer_id : PeerId) (endpoint : ConnectedPoint) (result : Option String)
  | CustomMessage (peer_id : PeerId) (endpoint : ConnectedPoint) (message : TMessage)
  | Clogged (peer_id : PeerId) (messages : List TMessage)
deriving DecidableEq

/-- Translation `From<CustomProtoOut<TMessage>> for BehaviourOut<TMessage>`:
each variant passes through unchanged. -/
def CustomProtoOut.into {TMessage : Type} : CustomProtoOut TMessage → BehaviourOut TMessage
  | .CustomProtocolOpen version peer_id endpoint =>
      .CustomProtocolOpen version peer_id endpoint
  | .CustomProtocolClosed peer_id endpoint result =>
      .CustomProtocolClosed peer_id endpoint result
  | .CustomMessage peer_id endpoint message =>
      .CustomMessage peer_id endpoint message
  | .Clogged peer_id messages =>
      .Clogged peer_id messages

/-- Log lines emitted by `behaviour.rs`, by call site. -/
inductive LogEntry where
  | traceIdentified (p : PeerId)
  | warnNonSubstrateNode (p : PeerId)
  | warnTooManyAddresses (p : PeerId)
  | debugSendBackError (p : PeerId)
  | traceAddressesOf (p : PeerId) (l : List Multiaddr)
  | debugDialNoAddrInKbuckets (p : PeerId)
  | debugDialNoAddrNotInKbuckets (p : PeerId)
  | debugStartRandomKadQuery (p : PeerId)
  | warnKadTimerError
  | tracePingTime (p : PeerId) (t : Nat)
  | traceFindNodeResult (size : Nat)
  | warnEmptyFindNodeResult
deriving DecidableEq

/-- The discovery subsystem (`DiscoveryBehaviour`): the user-defined static
peer table, the Kademlia instance, the deadline of the next random query
(`Delay` modelled by its deadline instant, in abstract time units), and the
current inter-query delay in seconds. -/
structure DiscoveryBehaviour where
  user_defined : List (PeerId × Multiaddr)
  kademlia : Kademlia
  next_kad_random_query : Nat
  duration_to_next_kad : Nat
deriving DecidableEq

/-- The composite behaviour (`Behaviour`).  The ping, identify and mDNS
sub-protocol states are opaque to `behaviour.rs` (it only forwards events),
so they are type parameters. -/
structure Behaviour (TMessage PingSt IdSt MdnsSt : Type) where
  ping : PingSt
  custom_protocols : CustomProto TMessage
  discovery : DiscoveryBehaviour
  identify : IdSt
  mdns : Option MdnsSt
  events : List (BehaviourOut TMessage)

/-- Constructor `Behaviour::new`.  `ping0`, `identify0` and `custom_protocols0`
stand for `Ping::new()`, `Identify::new(...)` and
`CustomProto::new(protocol, peerset)`, collaborator constructors outside this
source file; `mdns_result` stands for the outcome of `Mdns::new()`; `now` is
`Instant::now()`.  The Kademlia instance is seeded by calling
`add_connected_address` on every pair of `known_addresses`, and
`user_defined` stores `known_addresses` itself. -/
def Behaviour.new {TMessage PingSt IdSt MdnsSt : Type}
    (ping0 : PingSt) (identify0 : IdSt) (custom_protocols0 : CustomProto TMessage)
    (local_peer_id : PeerId) (known_addresses : List (PeerId × Multiaddr))
    (enable_mdns : Bool) (mdns_result : Except String MdnsSt) (now : Nat) :
    Behaviour TMessage PingSt IdSt MdnsSt :=
  let kademlia := known_addresses.foldl
    (fun k pa => k.add_connected_address pa.1 pa.2) (Kademlia.new local_peer_id)
  { ping := ping0
    custom_protocols := custom_protocols0
    discovery :=
      { user_defined := known_addresses
        kademlia := kademlia
        next_kad_random_query := now
        duration_to_next_kad := 1 }
    identify := identify0
    mdns :=
      if enable_mdns then
        match mdns_result with
        | .ok m => some m
        | .error _ => none
      else none
    events := [] }

/-- Operation `send_custom_message`: forwards to the application-messaging
sub-protocol. -/
def Behaviour.send_custom_message {TMessage PingSt IdSt MdnsSt : Type}
    (b : Behaviour TMessage PingSt IdSt MdnsSt) (target : PeerId) (data : TMessage) :
    Behaviour TMessage PingSt IdSt MdnsSt :=
  { b with custom_protocols := b.custom_protocols.send_packet target data }

/-- Operation `known_peers`: enumerates the Kademlia routing table. -/
def Behaviour.known_peers {TMessage PingSt IdSt MdnsSt : Type}
    (b : Behaviour TMessage PingSt IdSt MdnsSt) : List PeerId :=
  b.discovery.kademlia.kbuckets_entries

/-- Operation `is_enabled`, delegated to the application-messaging
sub-protocol. -/
def Behaviour.is_enabled {TMessage PingSt IdSt MdnsSt : Type}
    (b : Behaviour TMessage PingSt IdSt MdnsSt) (peer_id : PeerId) : Bool :=
  b.custom_protocols.is_enabled peer_id

/-- Operation `is_open`, delegated to the application-messaging
sub-protocol. -/
def Behaviour.is_open {TMessage PingSt IdSt MdnsSt : Type}
    (b : Behaviour TMessage PingSt IdSt MdnsSt) (peer_id : PeerId) : Bool :=
  b.custom_protocols.is_open peer_id

/-- Operation `add_known_address`: pushes `(peer_id, addr)` onto
`user_defined` when every existing entry differs from it in the peer AND in
the address (`iter().all(|(p, a)| *p != peer_id && *a != addr)`). -/
def Behaviour.add_known_address {TMessage PingSt IdSt MdnsSt : Type}
    (b : Behaviour TMessage PingSt IdSt MdnsSt) (peer_id : PeerId) (addr : Multiaddr) :
    Behaviour TMessage PingSt IdSt MdnsSt :=
  if b.discovery.user_defined.all (fun pa => pa.1 != peer_id && pa.2 != addr) then
    { b with discovery :=
        { b.discovery with user_defined := b.discovery.user_defined ++ [(peer_id, addr)] } }
  else b

/-- Operation `drop_node`: forwards a disconnect request to the
application-messaging sub-protocol. -/
def Behaviour.drop_node {TMessage PingSt IdSt MdnsSt : Type}
    (b : Behaviour TMessage PingSt IdSt MdnsSt) (peer_id : PeerId) :
    Behaviour TMessage PingSt IdSt MdnsSt :=
  { b with custom_protocols := b.custom_protocols.disconnect_peer peer_id }

/-- Composite `Behaviour::poll`: when the event queue is non-empty, removes
and returns its head (`events.remove(0)`); otherwise reports not-ready
(`none`) and leaves the state untouched. -/
def Behaviour.poll {TMessage PingSt IdSt MdnsSt : Type}
    (b : Behaviour TMessage PingSt IdSt MdnsSt) :
    Option (BehaviourOut TMessage) × Behaviour TMessage PingSt IdSt MdnsSt :=
  match b.events with
  | [] => (none, b)
  | e :: rest => (some e, { b with events := rest })

/-- Handler `inject_event` for `CustomProtoOut`: translates the raw event
and pushes it at the tail of the event queue. -/
def Behaviour.inject_custom_proto_event {TMessage PingSt IdSt MdnsSt : Type}
    (b : Behaviour TMessage PingSt IdSt MdnsSt) (event : CustomProtoOut TMessage) :
    Behaviour TMessage PingSt IdSt MdnsSt :=
  { b with events := b.events ++ [event.into] }

/-- Raw events of the identify (peer-info exchange) protocol consumed by
`behaviour.rs`. -/
inductive IdentifyEvent where
  | Identified (peer_id : PeerId) (info : IdentifyInfo)
  | ErrorEvent
  | SendBackError (peer_id : PeerId)
  | SendBackOk (peer_id : PeerId)
deriving DecidableEq

/-- Handler `inject_event` for `IdentifyEvent`.  On `Identified`: warn when
the reported protocol version does not contain `protocol_name`
(`crate::PROTOCOL_NAME`, a constant outside this file, hence a parameter);
truncate the listen-address list to 30 entries when it is longer, with a
warning; register every retained address with Kademlia; register the peer
as discovered with the application-messaging sub-protocol; and push an
`Identified` event carrying the (possibly truncated) info.  Other variants
only log or do nothing.  Returns the new state and the log lines in
emission order. -/
def Behaviour.inject_identify_event {TMessage PingSt IdSt MdnsSt : Type}
    (protocol_name : List Char) (b : Behaviour TMessage PingSt IdSt MdnsSt)
    (event : IdentifyEvent) :
    Behaviour TMessage PingSt IdSt MdnsSt × List LogEntry :=
  match event with
  | .Identified peer_id info =>
      let logs1 := [LogEntry.traceIdentified peer_id]
      let logs2 :=
        if containsSub info.protocol_version protocol_name then []
        else [LogEntry.warnNonSubstrateNode peer_id]
      let logs3 :=
        if info.listen_addrs.length > 30 then [LogEntry.warnTooManyAddresses peer_id]
        else []
      let info2 :=
        if info.listen_addrs.length > 30 then
          { info with listen_addrs := info.listen_addrs.take 30 }
        else info
      let kademlia2 := info2.listen_addrs.foldl
        (fun k a => k.add_connected_address peer_id a) b.discovery.kademlia
      ({ b with
          discovery := { b.discovery with kademlia := kademlia2 }
          custom_protocols := b.custom_protocols.add_discovered_node peer_id
          events := b.events ++ [BehaviourOut.Identified peer_id info2] },
        logs1 ++ logs2 ++ logs3)
  | .ErrorEvent => (b, [])
  | .SendBackError peer_id => (b, [LogEntry.debugSendBackError peer_id])
  | .SendBackOk _ => (b, [])

/-- Raw events of the Kademlia protocol consumed by `behaviour.rs`. -/
inductive KademliaOut where
  | Discovered
  | KBucketAdded (peer_id : PeerId)
  | FindNodeResult (key : PeerId) (closer_peers : List PeerId)
  | GetProvidersResult
deriving DecidableEq

/-- Handler `inject_event` for `KademliaOut`: a routing-table addition
registers the peer as discovered; a find-node result is only logged (warn
when empty); the other variants are ignored. -/
def Behaviour.inject_kademlia_event {TMessage PingSt IdSt MdnsSt : Type}
    (b : Behaviour TMessage PingSt IdSt MdnsSt) (out : KademliaOut) :
    Behaviour TMessage PingSt IdSt MdnsSt × List LogEntry :=
  match out with
  | .Discovered => (b, [])
  | .KBucketAdded peer_id =>
      ({ b with custom_protocols := b.custom_protocols.add_discovered_node peer_id }, [])
  | .FindNodeResult _ closer_peers =>
      (b, LogEntry.traceFindNodeResult closer_peers.length ::
        if closer_peers.isEmpty then [LogEntry.warnEmptyFindNodeResult] else [])
  | .GetProvidersResult => (b, [])

/-- Raw ping event consumed by `behaviour.rs`. -/
inductive PingEvent where
  | PingSuccess (peer : PeerId) (time : Nat)
deriving DecidableEq

/-- Handler `inject_event` for `PingEvent`: pushes a `PingSuccess` unified
event. -/
def Behaviour.inject_ping_event {TMessage PingSt IdSt MdnsSt : Type}
    (b : Behaviour TMessage PingSt IdSt MdnsSt) (event : PingEvent) :
    Behaviour TMessage PingSt IdSt MdnsSt × List LogEntry :=
  match event with
  | .PingSuccess peer time =>
      ({ b with events := b.events ++ [BehaviourOut.PingSuccess peer time] },
        [LogEntry.tracePingTime peer time])

/-- Raw mDNS (local-broadcast) events consumed by `behaviour.rs`. -/
inductive MdnsEvent where
  | Discovered (list : List (PeerId × Multiaddr))
  | Expired
deriving DecidableEq

/-- Handler `inject_event` for `MdnsEvent`: each locally discovered peer is
registered with the application-messaging sub-protocol; expiry is ignored. -/
def Behaviour.inject_mdns_event {TMessage PingSt IdSt MdnsSt : Type}
    (b : Behaviour TMessage PingSt IdSt MdnsSt) (event : MdnsEvent) :
    Behaviour TMessage PingSt IdSt MdnsSt :=
  match event with
  | .Discovered list =>
      { b with custom_protocols :=
          list.foldl (fun cp pa => cp.add_discovered_node pa.1) b.custom_protocols }
  | .Expired => b

/-- Discovery subsystem `addresses_of_peer`: the static entries matching the
peer (in table order), extended with the addresses Kademlia associates with
it; when the combined list is empty, a debug line records whether the peer
is at least present in the k-buckets.  Returns the list and the log lines. -/
def DiscoveryBehaviour.addresses_of_peer (d : DiscoveryBehaviour) (peer_id : PeerId) :
    List Multiaddr × List LogEntry :=
  let list0 := d.user_defined.filterMap
    (fun pa => if pa.1 == peer_id then some pa.2 else none)
  let list := list0 ++ d.kademlia.addresses_of_peer peer_id
  let logs :=
    LogEntry.traceAddressesOf peer_id list ::
    (if list.isEmpty then
      if d.kademlia.kbuckets_entries.any (fun p => p == peer_id) then
        [LogEntry.debugDialNoAddrInKbuckets peer_id]
      else
        [LogEntry.debugDialNoAddrNotInKbuckets peer_id]
    else [])
  (list, logs)

/-- Outcome of one `poll()` call on the `Delay` timer: pending, fired, or
errored. -/
inductive TimerPoll where
  | NotReady
  | Ready
  | Errored
deriving DecidableEq

/-- Abstract token for a ready `NetworkBehaviourAction` produced by
Kademlia's own poll. -/
abbrev KadAction := Nat

/-- Body of the timer-fired branch of `DiscoveryBehaviour::poll`: issue a
`find_node` query for the fresh random peer id `r`, rearm the timer for the
current delay from `now`, then double the delay, capping it at 60 seconds. -/
def kadFire (now : Nat) (r : PeerId) (d : DiscoveryBehaviour) : DiscoveryBehaviour :=
  { d with
      kademlia := d.kademlia.find_node r
      next_kad_random_query := now + d.duration_to_next_kad
      duration_to_next_kad := min (d.duration_to_next_kad * 2) 60 }

/-- The `loop` of `DiscoveryBehaviour::poll` over successive timer poll
outcomes: `Ready` fires (consuming the next random id `random k`) and
continues; `NotReady` breaks; `Errored` warns and breaks without firing.
Returns the final state and the log lines. -/
def kadQueryLoop (now : Nat) (random : Nat → PeerId) (k : Nat)
    (timer : List TimerPoll) (d : DiscoveryBehaviour) :
    DiscoveryBehaviour × List LogEntry :=
  match timer with
  | [] => (d, [])
  | TimerPoll.NotReady :: _ => (d, [])
  | TimerPoll.Errored :: _ => (d, [LogEntry.warnKadTimerError])
  | TimerPoll.Ready :: rest =>
      let d2 := kadFire now (random k) d
      let r2 := kadQueryLoop now random (k + 1) rest d2
      (r2.1, LogEntry.debugStartRandomKadQuery (random k) :: r2.2)

/-- Discovery subsystem `poll`.  `kad_poll` is the outcome of
`self.kademlia.poll(params)` (a ready action or not-ready) and `kad_after`
the Kademlia state after that call; a ready action is returned immediately.
Otherwise the timer loop runs over the successive timer poll outcomes
`timer`, drawing fresh random peer ids from `random`, and the poll reports
not-ready.  Returns the action (if any), the new state, and the logs. -/
def DiscoveryBehaviour.poll (d : DiscoveryBehaviour) (kad_poll : Option KadAction)
    (kad_after : Kademlia) (now : Nat) (random : Nat → PeerId)
    (timer : List TimerPoll) :
    Option KadAction × DiscoveryBehaviour × List LogEntry :=
  let d1 := { d with kademlia := kad_after }
  match kad_poll with
  | some action => (some action, d1, [])
  | none =>
      let r := kadQueryLoop now random 0 timer d1
      (none, r.1, r.2)

/-- Apply a sequence of `add_known_address` calls in order. -/
def Behaviour.applyAddCalls {TMessage PingSt IdSt MdnsSt : Type}
    (b : Behaviour TMessage PingSt IdSt MdnsSt)
    (calls : List (PeerId × Multiaddr)) : Behaviour TMessage PingSt IdSt MdnsSt :=
  calls.foldl (fun acc c => acc.add_known_address c.1 c.2) b

/-- Drain up to `n` events by repeated `poll` calls, collecting the returned
events in delivery order. -/
def Behaviour.pollN {TMessage PingSt IdSt MdnsSt : Type} :
    Behaviour TMessage PingSt IdSt MdnsSt → Nat →
    List (BehaviourOut TMessage) × Behaviour TMessage PingSt IdSt MdnsSt
  | b, 0 => ([], b)
  | b, n + 1 =>
      match b.poll with
      | (none, b2) => ([], b2)
      | (some e, b2) =>
          let r := Behaviour.pollN b2 n
          (e :: r.1, r.2)

/-- Duration evolution along `N` consecutive timer fires, with the fire
instants and random ids drawn from arbitrary streams (they do not affect
the delay). -/
def firesN : Nat → (Nat → Nat) → (Nat → PeerId) → DiscoveryBehaviour → DiscoveryBehaviour
  | 0, _, _, d => d
  | n + 1, nows, rs, d => kadFire (nows n) (rs n) (firesN n nows rs d)

/-! ### Helper lemmas -/

/-- Effect of `add_known_address` on the static peer table, as an explicit
conditional. -/
theorem add_known_address_user_defined {TMessage PingSt IdSt MdnsSt : Type}
    (b : Behaviour TMessage PingSt IdSt MdnsSt) (p : PeerId) (a : Multiaddr) :
    (b.add_known_address p a).discovery.user_defined =
      if b.discovery.user_defined.all (fun pa => pa.1 != p && pa.2 != a) then
        b.discovery.user_defined ++ [(p, a)]
      else b.discovery.user_defined := by
  unfold Behaviour.add_known_address
  split <;> simp_all

/-- The guard of `add_known_address`, restated in propositional form. -/
theorem add_known_address_guard_iff (l : List (PeerId × Multiaddr)) (p : PeerId)
    (a : Multiaddr) :
    (l.all (fun pa => pa.1 != p && pa.2 != a) = true) ↔
      ∀ e ∈ l, e.1 ≠ p ∧ e.2 ≠ a := by
  simp [List.all_eq_true, bne_iff_ne]

/-- The `add_known_address` operation preserves the absence of duplicate
entries in the static peer table. -/
theorem add_known_address_nodup {TMessage PingSt IdSt MdnsSt : Type}
    (b : Behaviour TMessage PingSt IdSt MdnsSt) (p : PeerId) (a : Multiaddr)
    (hnd : b.discovery.user_defined.Nodup) :
    (b.add_known_address p a).discovery.user_defined.Nodup := by
  rw [add_known_address_user_defined]
  split
  · rename_i hall
    rw [add_known_address_guard_iff] at hall
    have hmem : (p, a) ∉ b.discovery.user_defined := by
      intro hm
      exact (hall _ hm).1 rfl
    simp [List.nodup_append, hnd, hmem]
  · exact hnd

/-- Applying a sequence of `add_known_address` calls preserves the absence
of duplicate entries in the static peer table. -/
theorem applyAddCalls_nodup {TMessage PingSt IdSt MdnsSt : Type}
    (calls : List (PeerId × Multiaddr)) (b : Behaviour TMessage PingSt IdSt MdnsSt)
    (hnd : b.discovery.user_defined.Nodup) :
    (b.applyAddCalls calls).discovery.user_defined.Nodup := by
  induction calls generalizing b with
  | nil => exact hnd
  | cons c rest ih =>
      exact ih _ (add_known_address_nodup b c.1 c.2 hnd)

/-! ### Claims -/

/-- C1 counterexample: with StaticPeerTable `[(1, 1)]`, the call
`add_known_address 1 2` supplies a pair that is not an exact duplicate of
any existing entry (it differs in the address), yet the code refuses to
append it, because an existing entry already matches in the PeerId alone.
This falsifies the claim that only an exact (PeerId, Address) duplicate is
refused. -/
theorem claim_C1_counterexample :
    (Behaviour.add_known_address
      { ping := ()
        custom_protocols := (⟨[], [], [], [], []⟩ : CustomProto Nat)
        discovery :=
          { user_defined := [(1, 1)]
            kademlia := Kademlia.new 0
            next_kad_random_query := 0
            duration_to_next_kad := 1 }
        identify := ()
        mdns := (none : Option Unit)
        events := [] }
      1 2).discovery.user_defined = [(1, 1)]
    ∧ ((1, 2) ∈ [((1 : Nat), (1 : Nat))] → False) := by
  constructor
  · rfl
  · decide

/-- C1 amended: `add_known_address(peer, address)` appends the pair exactly
when every existing entry differs from it in BOTH the PeerId and the
Address; equivalently, it refuses (leaves the table unchanged) exactly when
some existing entry matches the new pair in the PeerId or in the Address
alone. -/
theorem claim_C1_add_known_address_characterization
    {TMessage PingSt IdSt MdnsSt : Type}
    (b : Behaviour TMessage PingSt IdSt MdnsSt) (p : PeerId) (a : Multiaddr) :
    ((b.add_known_address p a).discovery.user_defined =
        b.discovery.user_defined ++ [(p, a)]
      ↔ ∀ e ∈ b.discovery.user_defined, e.1 ≠ p ∧ e.2 ≠ a)
    ∧ ((b.add_known_address p a).discovery.user_defined = b.discovery.user_defined
      ↔ ∃ e ∈ b.discovery.user_defined, e.1 = p ∨ e.2 = a) := by
  rw [add_known_address_user_defined]
  by_cases hall : b.discovery.user_defined.all (fun pa => pa.1 != p && pa.2 != a) = true
  · rw [if_pos hall]
    rw [add_known_address_guard_iff] at hall
    constructor
    · exact ⟨fun _ => hall, fun _ => rfl⟩
    · constructor
      · intro heq
        have := congrArg List.length heq
        simp at this
      · rintro ⟨e, hmem, hor⟩
        rcases hor with h1 | h2
        · exact absurd h1 (hall e hmem).1
        · exact absurd h2 (hall e hmem).2
  · rw [if_neg hall]
    rw [add_known_address_guard_iff] at hall
    push_neg at hall
    obtain ⟨e, hmem, hbad⟩ := hall
    constructor
    · constructor
      · intro heq
        have := congrArg List.length heq
        simp at this
      · intro hforall
        exact absurd (hbad (hforall e hmem).1) (hforall e hmem).2
    · constructor
      · intro _
        by_cases h1 : e.1 = p
        · exact ⟨e, hmem, Or.inl h1⟩
        · exact ⟨e, hmem, Or.inr (hbad h1)⟩
      · intro _
        rfl

/-- C2 counterexample: construction stores the supplied `static_peers` list
verbatim, so an initial list already containing the pair `(1, 1)` twice
yields (after the empty sequence of `add_known_address` calls) a
StaticPeerTable with two entries identical in both PeerId and Address,
falsifying the claim for arbitrary initial lists. -/
theorem claim_C2_counterexample :
    ¬ ((@Behaviour.new Nat Unit Unit Unit () () ⟨[], [], [], [], []⟩ 0
          [(1, 1), (1, 1)] false (Except.error "e") 0).applyAddCalls
        []).discovery.user_defined.Nodup := by
  decide

/-- C2 amended: provided the initial `static_peers` list itself contains no
two entries identical in both PeerId and Address, then after any finite
sequence of `add_known_address` calls the StaticPeerTable still contains no
two such entries. -/
theorem claim_C2_no_duplicates_invariant
    {TMessage PingSt IdSt MdnsSt : Type}
    (ping0 : PingSt) (identify0 : IdSt) (cp0 : CustomProto TMessage)
    (local_peer_id : PeerId) (known_addresses : List (PeerId × Multiaddr))
    (enable_mdns : Bool) (mdns_result : Except String MdnsSt) (now : Nat)
    (calls : List (PeerId × Multiaddr))
    (hnd : known_addresses.Nodup) :
    ((Behaviour.new ping0 identify0 cp0 local_peer_id known_addresses enable_mdns
        mdns_result now).applyAddCalls calls).discovery.user_defined.Nodup := by
  exact applyAddCalls_nodup calls _ hnd

/-- C2 witness: a concrete duplicate-free initial list and a concrete call
sequence (containing an exact duplicate, a same-peer pair and a fresh pair)
for which the invariant theorem applies. -/
theorem claim_C2_witness :
    ((@Behaviour.new Nat Unit Unit Unit () () ⟨[], [], [], [], []⟩ 0
        [(1, 1), (2, 2)] false (Except.error "e") 0).applyAddCalls
      [(1, 1), (1, 3), (3, 3)]).discovery.user_defined.Nodup :=
  claim_C2_no_duplicates_invariant () () ⟨[], [], [], [], []⟩ 0
    [(1, 1), (2, 2)] false (Except.error "e") 0 [(1, 1), (1, 3), (3, 3)] (by decide)

/-- C10: construction stores the supplied `known_addresses` list verbatim as
`user_defined`, with no duplicate suppression; in particular a list
supplying the same pair twice persists element for element. -/
theorem claim_C10_construct_verbatim :
    (∀ (TMessage PingSt IdSt MdnsSt : Type) (ping0 : PingSt) (identify0 : IdSt)
        (cp0 : CustomProto TMessage) (local_peer_id : PeerId)
        (known_addresses : List (PeerId × Multiaddr)) (enable_mdns : Bool)
        (mdns_result : Except String MdnsSt) (now : Nat),
      (Behaviour.new ping0 identify0 cp0 local_peer_id known_addresses enable_mdns
          mdns_result now).discovery.user_defined = known_addresses)
    ∧ (@Behaviour.new Nat Unit Unit Unit () () ⟨[], [], [], [], []⟩ 0
        [(1, 1), (1, 1)] false (Except.error "e") 0).discovery.user_defined =
      [(1, 1), (1, 1)] := by
  exact ⟨fun _ _ _ _ _ _ _ _ _ _ _ _ => rfl, rfl⟩

/-- Delay update of one timer fire, read off `kadFire`. -/
theorem kadFire_duration (now : Nat) (r : PeerId) (d : DiscoveryBehaviour) :
    (kadFire now r d).duration_to_next_kad = min (d.duration_to_next_kad * 2) 60 :=
  rfl

/-- Doubling a capped power of two and recapping equals the next capped
power of two. -/
theorem min_double_pow (n : Nat) :
    min (min (2 ^ n) 60 * 2) 60 = min (2 ^ (n + 1)) 60 := by
  rcases le_or_lt (2 ^ n) 60 with h | h
  · rw [min_eq_left h, pow_succ]
  · have h60 : (60 : Nat) ≤ 2 ^ n := le_of_lt h
    have h60s : (60 : Nat) ≤ 2 ^ (n + 1) :=
      le_trans h60 (Nat.pow_le_pow_right (by norm_num) (Nat.le_succ n))
    rw [min_eq_right h60, min_eq_right h60s]
    norm_num

/-- Closed form of the delay after `N` consecutive fires from delay 1. -/
theorem firesN_duration (nows : Nat → Nat) (rs : Nat → PeerId) :
    ∀ (N : Nat) (d : DiscoveryBehaviour), d.duration_to_next_kad = 1 →
      (firesN N nows rs d).duration_to_next_kad = min (2 ^ N) 60 := by
  intro N
  induction N with
  | zero =>
      intro d h
      have : min (2 ^ 0) 60 = 1 := by norm_num
      rw [firesN, this, h]
  | succ n ih =>
      intro d h
      rw [firesN, kadFire_duration, ih d h, min_double_pow]

/-- C3: the delay starts at 1 at construction; after `N` consecutive fires
(the only operation ever touching it — no reset exists) it equals
`min(2^N, 60)` seconds; it is monotonically non-decreasing across fires and
never exceeds the 60-second cap. -/
theorem claim_C3_backoff
    {TMessage PingSt IdSt MdnsSt : Type}
    (ping0 : PingSt) (identify0 : IdSt) (cp0 : CustomProto TMessage)
    (local_peer_id : PeerId) (known_addresses : List (PeerId × Multiaddr))
    (enable_mdns : Bool) (mdns_result : Except String MdnsSt) (now : Nat)
    (nows : Nat → Nat) (rs : Nat → PeerId) (N : Nat) :
    (Behaviour.new ping0 identify0 cp0 local_peer_id known_addresses enable_mdns
        mdns_result now).discovery.duration_to_next_kad = 1
    ∧ (firesN N nows rs (Behaviour.new ping0 identify0 cp0 local_peer_id
        known_addresses enable_mdns mdns_result now).discovery).duration_to_next_kad =
      min (2 ^ N) 60
    ∧ (firesN N nows rs (Behaviour.new ping0 identify0 cp0 local_peer_id
        known_addresses enable_mdns mdns_result now).discovery).duration_to_next_kad ≤
      (firesN (N + 1) nows rs (Behaviour.new ping0 identify0 cp0 local_peer_id
        known_addresses enable_mdns mdns_result now).discovery).duration_to_next_kad
    ∧ (firesN N nows rs (Behaviour.new ping0 identify0 cp0 local_peer_id
        known_addresses enable_mdns mdns_result now).discovery).duration_to_next_kad ≤ 60 := by
  have h1 : (Behaviour.new ping0 identify0 cp0 local_peer_id known_addresses
      enable_mdns mdns_result now).discovery.duration_to_next_kad = 1 := rfl
  have hN := firesN_duration nows rs N _ h1
  have hN1 := firesN_duration nows rs (N + 1) _ h1
  refine ⟨h1, hN, ?_, ?_⟩
  · rw [hN, hN1]
    exact min_le_min (Nat.pow_le_pow_right (by norm_num) (Nat.le_succ N)) le_rfl
  · rw [hN]
    exact min_le_right _ _

/-- Folding `add_connected_address` over an address list appends the
corresponding pairs, in order, to the address book. -/
theorem foldl_add_connected_address (peer_id : PeerId) (l : List Multiaddr)
    (k : Kademlia) :
    (l.foldl (fun k a => k.add_connected_address peer_id a) k).addrBook =
      k.addrBook ++ l.map (fun a => (peer_id, a)) := by
  induction l generalizing k with
  | nil => simp
  | cons a t ih =>
      simp only [List.foldl_cons, List.map_cons]
      rw [ih]
      simp [Kademlia.add_connected_address]

/-- C4: an identify event reporting more than 30 listen addresses has its
list truncated to exactly the first 30: the `Identified` unified event
appended to the queue carries exactly those 30 addresses, the retained list
has length 30, and exactly those 30 addresses are registered with the DHT
collaborator for this peer. -/
theorem claim_C4_truncation {TMessage PingSt IdSt MdnsSt : Type}
    (protocol_name : List Char) (b : Behaviour TMessage PingSt IdSt MdnsSt)
    (peer_id : PeerId) (info : IdentifyInfo)
    (h : 30 < info.listen_addrs.length) :
    (b.inject_identify_event protocol_name (.Identified peer_id info)).1.events =
      b.events ++ [BehaviourOut.Identified peer_id
        { info with listen_addrs := info.listen_addrs.take 30 }]
    ∧ (info.listen_addrs.take 30).length = 30
    ∧ (b.inject_identify_event protocol_name
        (.Identified peer_id info)).1.discovery.kademlia.addrBook =
      b.discovery.kademlia.addrBook ++
        (info.listen_addrs.take 30).map (fun a => (peer_id, a)) := by
  have hgt : info.listen_addrs.length > 30 := h
  refine ⟨?_, ?_, ?_⟩
  · simp [Behaviour.inject_identify_event, hgt]
  · simp [List.length_take]
    omega
  · simp [Behaviour.inject_identify_event, hgt, foldl_add_connected_address]

/-- C4 witness: a concrete identify event reporting 45 addresses. -/
theorem claim_C4_witness :
    30 < (List.range 45).length
    ∧ ((Behaviour.inject_identify_event ['s']
          { ping := ()
            custom_protocols := (⟨[], [], [], [], []⟩ : CustomProto Nat)
            discovery :=
              { user_defined := []
                kademlia := Kademlia.new 0
                next_kad_random_query := 0
                duration_to_next_kad := 1 }
            identify := ()
            mdns := (none : Option Unit)
            events := [] }
          (.Identified 7 ⟨['s'], List.range 45⟩)).1.events =
        [] ++ [BehaviourOut.Identified 7
          { protocol_version := ['s'], listen_addrs := (List.range 45).take 30 }]
      ∧ ((List.range 45).take 30).length = 30
      ∧ (Behaviour.inject_identify_event ['s']
          { ping := ()
            custom_protocols := (⟨[], [], [], [], []⟩ : CustomProto Nat)
            discovery :=
              { user_defined := []
                kademlia := Kademlia.new 0
                next_kad_random_query := 0
                duration_to_next_kad := 1 }
            identify := ()
            mdns := (none : Option Unit)
            events := [] }
          (.Identified 7 ⟨['s'], List.range 45⟩)).1.discovery.kademlia.addrBook =
        (Kademlia.new 0).addrBook ++ ((List.range 45).take 30).map (fun a => (7, a))) :=
  ⟨by decide, claim_C4_truncation ['s'] _ 7 ⟨['s'], List.range 45⟩ (by decide)⟩

/-- C7: when the reported protocol version does not contain the expected
protocol name, the handler takes the warning path (the warning log line is
emitted) but still processes the event fully: the `Identified` unified
event is appended to the queue and the peer is registered as discovered
with the application-messaging sub-protocol. -/
theorem claim_C7_mismatch_still_processed {TMessage PingSt IdSt MdnsSt : Type}
    (protocol_name : List Char) (b : Behaviour TMessage PingSt IdSt MdnsSt)
    (peer_id : PeerId) (info : IdentifyInfo)
    (h : containsSub info.protocol_version protocol_name = false) :
    LogEntry.warnNonSubstrateNode peer_id ∈
      (b.inject_identify_event protocol_name (.Identified peer_id info)).2
    ∧ (b.inject_identify_event protocol_name (.Identified peer_id info)).1.events =
      b.events ++ [BehaviourOut.Identified peer_id
        (if info.listen_addrs.length > 30 then
          { info with listen_addrs := info.listen_addrs.take 30 }
        else info)]
    ∧ (b.inject_identify_event protocol_name
        (.Identified peer_id info)).1.custom_protocols.discovered =
      b.custom_protocols.discovered ++ [peer_id] := by
  refine ⟨?_, ?_, ?_⟩
  · simp [Behaviour.inject_identify_event, h]
  · simp [Behaviour.inject_identify_event]
  · simp [Behaviour.inject_identify_event, CustomProto.add_discovered_node]

/-- C7 witness: a concrete mismatching identify event for peer 2 is still
fully processed. -/
theorem claim_C7_witness :
    containsSub ['x'] ['s', 'u', 'p'] = false
    ∧ (LogEntry.warnNonSubstrateNode 2 ∈
        (Behaviour.inject_identify_event ['s', 'u', 'p']
          { ping := ()
            custom_protocols := (⟨[], [], [], [], []⟩ : CustomProto Nat)
            discovery :=
              { user_defined := []
                kademlia := Kademlia.new 0
                next_kad_random_query := 0
                duration_to_next_kad := 1 }
            identify := ()
            mdns := (none : Option Unit)
            events := [] }
          (.Identified 2 ⟨['x'], [7]⟩)).2
      ∧ (Behaviour.inject_identify_event ['s', 'u', 'p']
          { ping := ()
            custom_protocols := (⟨[], [], [], [], []⟩ : CustomProto Nat)
            discovery :=
              { user_defined := []
                kademlia := Kademlia.new 0
                next_kad_random_query := 0
                duration_to_next_kad := 1 }
            identify := ()
            mdns := (none : Option Unit)
            events := [] }
          (.Identified 2 ⟨['x'], [7]⟩)).1.events =
        [] ++ [BehaviourOut.Identified 2
          (if ([7] : List Multiaddr).length > 30 then
            { protocol_version := ['x'], listen_addrs := ([7] : List Multiaddr).take 30 }
          else ⟨['x'], [7]⟩)]
      ∧ (Behaviour.inject_identify_event ['s', 'u', 'p']
          { ping := ()
            custom_protocols := (⟨[], [], [], [], []⟩ : CustomProto Nat)
            discovery :=
              { user_defined := []
                kademlia := Kademlia.new 0
                next_kad_random_query := 0
                duration_to_next_kad := 1 }
            identify := ()
            mdns := (none : Option Unit)
            events := [] }
          (.Identified 2 ⟨['x'], [7]⟩)).1.custom_protocols.discovered =
        [] ++ [2]) :=
  ⟨by decide, claim_C7_mismatch_still_processed ['s', 'u', 'p'] _ 2 ⟨['x'], [7]⟩ (by decide)⟩

/-- The static-match pass of `addresses_of_peer`, rewritten from a
`filterMap` to a filter-then-project form. -/
theorem filterMap_match_eq_filter_map (l : List (PeerId × Multiaddr)) (p : PeerId) :
    l.filterMap (fun pa => if pa.1 == p then some pa.2 else none) =
      (l.filter fun pa => pa.1 == p).map fun pa => pa.2 := by
  induction l with
  | nil => rfl
  | cons e t ih =>
      simp only [List.filterMap_cons, List.filter_cons, ih]
      cases hb : (e.1 == p)
      · simp [hb]
      · simp [hb]

/-- C6: `addresses_of_peer` returns every static-table address whose entry
matches the peer, in table order, followed by every address the DHT
associates with the peer; the result is empty exactly when neither the
static table nor the DHT address book has an entry for the peer; and the
k-buckets (read only by the empty-case debug logging) do not influence the
returned list. -/
theorem claim_C6_addresses_of (d : DiscoveryBehaviour) (peer_id : PeerId) :
    (d.addresses_of_peer peer_id).1 =
      ((d.user_defined.filter fun pa => pa.1 == peer_id).map fun pa => pa.2) ++
        d.kademlia.addresses_of_peer peer_id
    ∧ ((d.addresses_of_peer peer_id).1 = [] ↔
        (∀ e ∈ d.user_defined, e.1 ≠ peer_id) ∧
          (∀ e ∈ d.kademlia.addrBook, e.1 ≠ peer_id))
    ∧ (∀ kb : List PeerId,
        (DiscoveryBehaviour.addresses_of_peer
            { d with kademlia := { d.kademlia with kbuckets := kb } } peer_id).1 =
          (d.addresses_of_peer peer_id).1) := by
  refine ⟨?_, ?_, fun kb => rfl⟩
  · have hfst : (d.addresses_of_peer peer_id).1 =
        d.user_defined.filterMap
          (fun pa => if pa.1 == peer_id then some pa.2 else none) ++
          d.kademlia.addresses_of_peer peer_id := rfl
    rw [hfst, filterMap_match_eq_filter_map]
  · simp only [DiscoveryBehaviour.addresses_of_peer, Kademlia.addresses_of_peer,
      List.append_eq_nil, List.filterMap_eq_nil_iff, List.map_eq_nil_iff, List.filter_eq_nil_iff]
    constructor
    · rintro ⟨h1, h2⟩
      refine ⟨fun e he => ?_, fun e he => ?_⟩
      · have := h1 e he
        by_contra hc
        simp [hc] at this
      · have := h2 e he
        simpa using this
    · rintro ⟨h1, h2⟩
      refine ⟨fun e he => ?_, fun e he => ?_⟩
      · simp [h1 e he]
      · simpa using h2 e he

/-- Repeated polling with fuel equal to the queue length drains the queue
and returns the events in queue order. -/
theorem pollN_drains {TMessage PingSt IdSt MdnsSt : Type} :
    ∀ (l : List (BehaviourOut TMessage)) (b : Behaviour TMessage PingSt IdSt MdnsSt),
      b.events = l → (Behaviour.pollN b l.length).1 = l := by
  intro l
  induction l with
  | nil => intro b _; rfl
  | cons e rest ih =>
      intro b h
      obtain ⟨bp, bc, bd, bi, bm, bev⟩ := b
      simp only at h
      subst h
      exact congrArg (List.cons e) (ih ⟨bp, bc, bd, bi, bm, rest⟩ rfl)

/-- C8: `poll` pops and returns the head of a non-empty event queue, leaving
the tail; on an empty queue it returns not-ready and leaves the state
unchanged; translated events are appended at the tail; and draining the
queue by repeated polls delivers the events in exactly the order they were
appended. -/
theorem claim_C8_poll_fifo {TMessage PingSt IdSt MdnsSt : Type} :
    (∀ (b : Behaviour TMessage PingSt IdSt MdnsSt) (e : BehaviourOut TMessage)
        (rest : List (BehaviourOut TMessage)),
      Behaviour.poll { b with events := e :: rest } =
        (some e, { b with events := rest }))
    ∧ (∀ b : Behaviour TMessage PingSt IdSt MdnsSt,
      Behaviour.poll { b with events := [] } = (none, { b with events := [] }))
    ∧ (∀ (b : Behaviour TMessage PingSt IdSt MdnsSt) (ev : CustomProtoOut TMessage),
      (b.inject_custom_proto_event ev).events = b.events ++ [ev.into])
    ∧ (∀ b : Behaviour TMessage PingSt IdSt MdnsSt,
      (Behaviour.pollN b b.events.length).1 = b.events) :=
  ⟨fun _ _ _ => rfl, fun _ => rfl, fun _ _ => rfl, fun b => pollN_drains _ b rfl⟩

/-- C9: `drop_node` only forwards a disconnect request to the
application-messaging sub-protocol: the ping, discovery (including the
static peer table and Kademlia), identify and mDNS states and the pending
event queue are all unchanged (so no unified event is emitted
synchronously, in particular when no session with the peer is open), and
the only change to the application-messaging collaborator is the recorded
disconnect request. -/
theorem claim_C9_drop_node_frame {TMessage PingSt IdSt MdnsSt : Type}
    (b : Behaviour TMessage PingSt IdSt MdnsSt) (p : PeerId) :
    (b.drop_node p).ping = b.ping
    ∧ (b.drop_node p).discovery = b.discovery
    ∧ (b.drop_node p).discovery.user_defined = b.discovery.user_defined
    ∧ (b.drop_node p).identify = b.identify
    ∧ (b.drop_node p).mdns = b.mdns
    ∧ (b.drop_node p).events = b.events
    ∧ (b.drop_node p).custom_protocols = b.custom_protocols.disconnect_peer p
    ∧ (b.drop_node p).custom_protocols.discovered = b.custom_protocols.discovered
    ∧ (b.drop_node p).custom_protocols.sent = b.custom_protocols.sent
    ∧ (b.drop_node p).custom_protocols.openPeers = b.custom_protocols.openPeers
    ∧ (b.drop_node p).custom_protocols.enabledPeers = b.custom_protocols.enabledPeers
    ∧ (b.drop_node p).custom_protocols.disconnectRequests =
        b.custom_protocols.disconnectRequests ++ [p] :=
  ⟨rfl, rfl, rfl, rfl, rfl, rfl, rfl, rfl, rfl, rfl, rfl, rfl⟩

/-- C5: the discovery subsystem poll returns a ready Kademlia action
immediately, with the timer deadline and the delay untouched and no query
issued; otherwise it runs the timer loop and reports not-ready (never an
error).  Each timer fire issues a `find_node` query for the freshly drawn
random peer id, rearms the deadline to the current delay from now, and then
doubles the delay capped at 60, leaving the static table unchanged; a timer
error produces only a warning, with no query and no rearm; a pending timer
ends the loop silently. -/
theorem claim_C5_discovery_poll (d : DiscoveryBehaviour) (kad_after : Kademlia)
    (now : Nat) (random : Nat → PeerId) (timer : List TimerPoll) :
    (∀ a : KadAction,
        DiscoveryBehaviour.poll d (some a) kad_after now random timer =
          (some a, { d with kademlia := kad_after }, [])
        ∧ ({ d with kademlia := kad_after } : DiscoveryBehaviour).next_kad_random_query =
            d.next_kad_random_query
        ∧ ({ d with kademlia := kad_after } : DiscoveryBehaviour).duration_to_next_kad =
            d.duration_to_next_kad)
    ∧ DiscoveryBehaviour.poll d none kad_after now random timer =
        (none, (kadQueryLoop now random 0 timer { d with kademlia := kad_after }).1,
          (kadQueryLoop now random 0 timer { d with kademlia := kad_after }).2)
    ∧ (∀ (k : Nat) (d2 : DiscoveryBehaviour) (rest : List TimerPoll),
        kadQueryLoop now random k (TimerPoll.Ready :: rest) d2 =
          ((kadQueryLoop now random (k + 1) rest (kadFire now (random k) d2)).1,
            LogEntry.debugStartRandomKadQuery (random k) ::
              (kadQueryLoop now random (k + 1) rest (kadFire now (random k) d2)).2))
    ∧ (∀ (r : PeerId) (d2 : DiscoveryBehaviour),
        (kadFire now r d2).kademlia.queries = d2.kademlia.queries ++ [r]
        ∧ (kadFire now r d2).next_kad_random_query = now + d2.duration_to_next_kad
        ∧ (kadFire now r d2).duration_to_next_kad = min (d2.duration_to_next_kad * 2) 60
        ∧ (kadFire now r d2).user_defined = d2.user_defined)
    ∧ (∀ (k : Nat) (d2 : DiscoveryBehaviour) (rest : List TimerPoll),
        kadQueryLoop now random k (TimerPoll.Errored :: rest) d2 =
          (d2, [LogEntry.warnKadTimerError]))
    ∧ (∀ (k : Nat) (d2 : DiscoveryBehaviour) (rest : List TimerPoll),
        kadQueryLoop now random k (TimerPoll.NotReady :: rest) d2 = (d2, [])) :=
  ⟨fun _ => ⟨rfl, rfl, rfl⟩, rfl, fun _ _ _ => rfl, fun _ _ => ⟨rfl, rfl, rfl, rfl⟩,
    fun _ _ _ => rfl, fun _ _ _ => rfl⟩
